import Mathlib

/-!
Verification of the real-time orderbook monitor script
(`scripts/realtime_orderbook.py`).

The script's numeric values are embedded as rationals; Python's `round`
(round-half-to-even) is modelled exactly on rationals.  Python's stable
`sorted` is modelled by `List.mergeSort`.  Optional float configuration
fields are `Option ℚ`, with Python truthiness (`None` and `0` are falsy)
made explicit at each guard.
-/

attribute [local semireducible] Rat.add Rat.sub Rat.mul Rat.inv

namespace RealtimeOrderbook

/-- Round a rational to the nearest integer, ties to even
(the rounding mode of Python's `round`). -/
def roundHalfEven (x : ℚ) : ℤ :=
  if x - x.floor < 1 / 2 then x.floor
  else if 1 / 2 < x - x.floor then x.floor + 1
  else if x.floor % 2 = 0 then x.floor else x.floor + 1

/-- Python `round(x, p)` for a nonnegative number of digits `p`. -/
def roundTo (p : ℕ) (x : ℚ) : ℚ := (roundHalfEven (x * 10 ^ p) : ℚ) / 10 ^ p

/-- A raw orderbook level (`OrderBookRow`): a price and a size. -/
structure OrderBookRow where
  price : ℚ
  amount : ℚ
deriving DecidableEq

/-- One entry of `processed_bids` / `processed_asks`
(`process_orderbook`, lines 215-219 and 226-230). -/
structure ProcessedLevel where
  price : ℚ
  volume : ℚ
  total : ℚ
deriving DecidableEq

/-- The fields of `RealtimeOrderbookConfig` that the reduction, filtering and
alert logic read (lines 24-50).  Optional float fields are `Option ℚ`
(`None` when unset). -/
structure Config where
  orderbook_depth : ℕ
  min_volume_filter : Option ℚ
  price_precision : ℕ
  volume_precision : ℕ
  spread_alert_threshold : Option ℚ
  volume_alert_threshold : Option ℚ
deriving DecidableEq

/-- The guard `self.config.min_volume_filter and row.amount < self.config.min_volume_filter`
(lines 213 and 224).  Python truthiness: `None` and `0` are falsy, so the
filter is inactive in those cases. -/
def dropLevel (f : Option ℚ) (r : OrderBookRow) : Bool :=
  match f with
  | none => false
  | some t => decide (t ≠ 0) && decide (r.amount < t)

/-- Building one processed level: price, volume and notional rounded at the
configured precisions (lines 215-219 and 226-230). -/
def mkLevel (c : Config) (r : OrderBookRow) : ProcessedLevel :=
  { price := roundTo c.price_precision r.price
    volume := roundTo c.volume_precision r.amount
    total := roundTo c.volume_precision (r.price * r.amount) }

/-- Sort key for bids: `sorted(..., key=lambda x: x.price, reverse=True)`
(line 212). -/
def bidLE (a b : OrderBookRow) : Bool := decide (b.price ≤ a.price)

/-- Sort key for asks: `sorted(..., key=lambda x: x.price)` (line 223). -/
def askLE (a b : OrderBookRow) : Bool := decide (a.price ≤ b.price)

/-- The per-side loop of `process_orderbook` (lines 211-230): sort, slice to
`orderbook_depth`, then skip levels failing the volume guard, then round.
Note the slice `[:depth]` is applied to the sorted list before the guard
runs inside the loop. -/
def processCore (c : Config) (le : OrderBookRow → OrderBookRow → Bool)
    (l : List OrderBookRow) : List ProcessedLevel :=
  (((l.mergeSort le).take c.orderbook_depth).filter
      (fun r => ! dropLevel c.min_volume_filter r)).map (mkLevel c)

/-- Lines 211-219 of `process_orderbook`. -/
def processBids (c : Config) (bids : List OrderBookRow) : List ProcessedLevel :=
  processCore c bidLE bids

/-- Lines 221-230 of `process_orderbook`. -/
def processAsks (c : Config) (asks : List OrderBookRow) : List ProcessedLevel :=
  processCore c askLE asks

/-- `processed[0]['price'] if processed else 0` (lines 233-234). -/
def bestPrice : List ProcessedLevel → ℚ
  | [] => 0
  | l :: _ => l.price

/-- `(best_bid + best_ask) / 2 if best_bid and best_ask else 0` (line 235);
Python float truthiness is `≠ 0`. -/
def midPrice (bb ba : ℚ) : ℚ := if bb ≠ 0 ∧ ba ≠ 0 then (bb + ba) / 2 else 0

/-- `best_ask - best_bid if best_bid and best_ask else 0` (line 236). -/
def spreadAbs (bb ba : ℚ) : ℚ := if bb ≠ 0 ∧ ba ≠ 0 then ba - bb else 0

/-- `(spread / mid_price * 100) if mid_price > 0 else 0` (line 237). -/
def spreadPct (spread mid : ℚ) : ℚ := if 0 < mid then spread / mid * 100 else 0

/-- The dictionary returned by `process_orderbook` (lines 243-257), restricted
to the numeric fields the claims are about.  `update_count` is the value the
strategy holds when the snapshot is built (pre-increment, line 256). -/
structure Snapshot where
  bids : List ProcessedLevel
  asks : List ProcessedLevel
  best_bid : ℚ
  best_ask : ℚ
  mid_price : ℚ
  spread : ℚ
  spread_percent : ℚ
  total_bid_volume : ℚ
  total_ask_volume : ℚ
  update_count : ℕ
deriving DecidableEq

/-- `process_orderbook` (lines 204-257). -/
def processOrderbook (c : Config) (rawBids rawAsks : List OrderBookRow)
    (uc : ℕ) : Snapshot :=
  { bids := processBids c rawBids
    asks := processAsks c rawAsks
    best_bid := bestPrice (processBids c rawBids)
    best_ask := bestPrice (processAsks c rawAsks)
    mid_price := midPrice (bestPrice (processBids c rawBids))
      (bestPrice (processAsks c rawAsks))
    spread := spreadAbs (bestPrice (processBids c rawBids))
      (bestPrice (processAsks c rawAsks))
    spread_percent := spreadPct
      (spreadAbs (bestPrice (processBids c rawBids))
        (bestPrice (processAsks c rawAsks)))
      (midPrice (bestPrice (processBids c rawBids))
        (bestPrice (processAsks c rawAsks)))
    total_bid_volume := ((processBids c rawBids).map ProcessedLevel.volume).sum
    total_ask_volume := ((processAsks c rawAsks).map ProcessedLevel.volume).sum
    update_count := uc }

/-- The two alert kinds produced by `check_alerts` (lines 348-361). -/
inductive AlertKind where
  | high_spread : AlertKind
  | low_volume : AlertKind
deriving DecidableEq

/-- The guard `self.config.spread_alert_threshold and data['spread_percent'] > threshold`
(line 352); `None` and `0` thresholds are falsy. -/
def spreadAlertFires (th : Option ℚ) (sp : ℚ) : Bool :=
  match th with
  | none => false
  | some t => decide (t ≠ 0) && decide (t < sp)

/-- The guard of lines 355-357: threshold truthy and
`total_bid_volume + total_ask_volume < threshold`. -/
def volumeAlertFires (th : Option ℚ) (tv : ℚ) : Bool :=
  match th with
  | none => false
  | some t => decide (t ≠ 0) && decide (tv < t)

/-- `check_alerts` (lines 348-361): the high-spread check is appended first,
then the low-volume check. -/
def checkAlerts (c : Config) (d : Snapshot) : List AlertKind :=
  (if spreadAlertFires c.spread_alert_threshold d.spread_percent then
    [AlertKind.high_spread] else [])
  ++ (if volumeAlertFires c.volume_alert_threshold
        (d.total_bid_volume + d.total_ask_volume) then
    [AlertKind.low_volume] else [])

/-- The keyword list of `_detect_connector_type` (lines 104-107). -/
def perpetualKeywords : List (List Char) :=
  [("perpetual").toList, ("perp").toList, ("futures").toList,
   ("derivative").toList, ("dydx").toList, ("hyperliquid").toList,
   ("binance_perpetual").toList, ("bybit_perpetual").toList,
   ("okx_perpetual").toList, ("kucoin_perpetual").toList]

/-- Tests whether the first list is an initial segment of the second. -/
def leadsList : List Char → List Char → Bool
  | [], _ => true
  | _ :: _, [] => false
  | a :: as, b :: bs => a == b && leadsList as bs

/-- Python's `needle in hay` substring test on strings as char lists. -/
def substrIn (needle : List Char) : List Char → Bool
  | [] => needle.isEmpty
  | c :: rest => leadsList needle (c :: rest) || substrIn needle rest

/-- `connector.lower()`. -/
def lowerStr (s : List Char) : List Char := s.map Char.toLower

/-- The `for keyword in perpetual_keywords` loop of lines 116-122: the first
keyword found in the lowercased name classifies as perpetual, otherwise the
fall-through default is spot. -/
def detectLoop : List (List Char) → List Char → List Char
  | [], _ => ("spot").toList
  | k :: ks, cl =>
      if substrIn k cl then ("perpetual").toList else detectLoop ks cl

/-- `_detect_connector_type` (lines 102-122) as a function of the connector
name and the currently configured `connector_type`: a truthy (non-empty)
explicit value is kept unchanged (lines 112-113), otherwise the keyword scan
runs on the lowercased connector name. -/
def detectConnectorType (connector : List Char) (connector_type : List Char) :
    List Char :=
  if connector_type.isEmpty then detectLoop perpetualKeywords (lowerStr connector)
  else connector_type

/-- Lines 199-202 of `fetch_and_display_orderbook`: the history store.
`pop(0)` runs only when the current length exceeds 100, then the new entry
is appended. -/
def storeHistory {α : Type} (history : List α) (d : α) : List α :=
  (if 100 < history.length then history.drop 1 else history) ++ [d]

/-- The history after `n` appends into an initially empty list, appending the
tags `0, 1, 2, ...` in order so entries are identifiable. -/
def appendRange (n : ℕ) : List ℕ := (List.range n).foldl storeHistory []

/-- One output line of `display_csv_format`. -/
inductive CsvLine where
  | header : CsvLine
  | row : CsvLine
deriving DecidableEq

/-- `display_csv_format` (lines 336-346): the header line is printed exactly
when `self.update_count == 1` (line 341), and a data row is always printed. -/
def displayCsvFormat (update_count : ℕ) : List CsvLine :=
  (if update_count = 1 then [CsvLine.header] else []) ++ [CsvLine.row]

/-- One successful CSV cycle of `fetch_and_display_orderbook` (lines 182-202):
the display runs with the pre-cycle `update_count`, and the counter is
incremented only afterwards (line 196).  The state is the counter value
paired with the per-cycle output lines so far. -/
def csvCycle (st : ℕ × List (List CsvLine)) : ℕ × List (List CsvLine) :=
  (st.1 + 1, st.2 ++ [displayCsvFormat st.1])

/-- `n` successful CSV cycles of a freshly constructed strategy
(`update_count` starts at `0`, line 86). -/
def runCsv (n : ℕ) : ℕ × List (List CsvLine) := csvCycle^[n] (0, [])

/-- The strategy state that `on_tick` can observe or change. -/
structure TickState where
  is_running : Bool
  update_count : ℕ
  history : List Snapshot
deriving DecidableEq

/-- `on_tick` (lines 148-156): an early return when `is_running` is false;
otherwise the whole fetch/process/display body runs inside `try`/`except`,
and the handler only logs, leaving the pre-tick state in place.  A raised
exception is an `Except.error` outcome of the body; the return type
`TickState` (rather than `Except`) reflects that nothing escapes the
boundary. -/
def onTick (tickBody : TickState → Except String TickState)
    (st : TickState) : TickState :=
  if st.is_running then
    match tickBody st with
    | Except.ok st' => st'
    | Except.error _ => st
  else st

/-- A tick body that always raises. -/
def failTick : TickState → Except String TickState :=
  fun _ => Except.error ("boom")

def tickSt : TickState := { is_running := true, update_count := 0, history := [] }

def alertCfg : Config :=
  { orderbook_depth := 10, min_volume_filter := none, price_precision := 4,
    volume_precision := 4, spread_alert_threshold := some 1,
    volume_alert_threshold := some 10 }

def alertSnap : Snapshot :=
  { bids := [], asks := [], best_bid := 0, best_ask := 0, mid_price := 0,
    spread := 0, spread_percent := 2, total_bid_volume := 3,
    total_ask_volume := 4, update_count := 0 }

def emptyCfg : Config :=
  { orderbook_depth := 2, min_volume_filter := none, price_precision := 4,
    volume_precision := 4, spread_alert_threshold := none,
    volume_alert_threshold := none }

def askRows : List OrderBookRow := [{ price := 101, amount := 3 }]

/-- Follows the spec's stated reduction order (Section 4.2 steps 2-3: filter
by minimum volume first, truncate to depth afterwards), for comparison with
`processCore`, which performs the code's order (truncate, then filter). -/
def specFilterFirstCore (c : Config) (le : OrderBookRow → OrderBookRow → Bool)
    (l : List OrderBookRow) : List ProcessedLevel :=
  (((l.mergeSort le).filter
      (fun r => ! dropLevel c.min_volume_filter r)).take
        c.orderbook_depth).map (mkLevel c)

def cexCfg : Config :=
  { orderbook_depth := 1, min_volume_filter := some 1, price_precision := 4,
    volume_precision := 4, spread_alert_threshold := none,
    volume_alert_threshold := none }

def cexRows : List OrderBookRow :=
  [{ price := 100, amount := 1 / 2 }, { price := 99, amount := 2 }]

def bordCfg : Config :=
  { orderbook_depth := 2, min_volume_filter := some 1, price_precision := 4,
    volume_precision := 4, spread_alert_threshold := none,
    volume_alert_threshold := none }

def bordRows : List OrderBookRow :=
  [{ price := 100, amount := 1 }, { price := 99, amount := 1 / 2 }]

/-- Reading a processed level back as a raw level (price and size), to state
round-trip stability of the reduction. -/
def rowsOf (ls : List ProcessedLevel) : List OrderBookRow :=
  ls.map (fun p => { price := p.price, amount := p.volume })

def roundedCfg : Config :=
  { orderbook_depth := 10, min_volume_filter := some 1, price_precision := 2,
    volume_precision := 2, spread_alert_threshold := none,
    volume_alert_threshold := none }

def roundedBids : List OrderBookRow :=
  [{ price := 100, amount := 2 }, { price := 99, amount := 5 }]

def roundedAsks : List OrderBookRow :=
  [{ price := 101, amount := 3 }, { price := 102, amount := 1 / 2 }]

theorem ratFloor_eq_floor (x : ℚ) : x.floor = ⌊x⌋ := rfl

theorem roundHalfEven_ge_floor (x : ℚ) : ⌊x⌋ ≤ roundHalfEven x := by
  unfold roundHalfEven
  rw [ratFloor_eq_floor]
  split_ifs <;> omega

theorem roundHalfEven_le_floor_add_one (x : ℚ) : roundHalfEven x ≤ ⌊x⌋ + 1 := by
  unfold roundHalfEven
  rw [ratFloor_eq_floor]
  split_ifs <;> omega

theorem roundHalfEven_mono {x y : ℚ} (h : x ≤ y) :
    roundHalfEven x ≤ roundHalfEven y := by
  have hf : ⌊x⌋ ≤ ⌊y⌋ := Int.floor_le_floor h
  rcases eq_or_lt_of_le hf with he | hlt
  · have hq : ((⌊x⌋ : ℚ)) = (⌊y⌋ : ℚ) := by exact_mod_cast he
    have hxy : x - (⌊x⌋ : ℚ) ≤ y - (⌊y⌋ : ℚ) := by
      rw [hq] at *
      linarith
    unfold roundHalfEven
    rw [ratFloor_eq_floor, ratFloor_eq_floor]
    split_ifs <;> first | omega | (exfalso; omega) | (exfalso; linarith)
  · have h1 := roundHalfEven_le_floor_add_one x
    have h2 := roundHalfEven_ge_floor y
    omega

theorem roundTo_mono (p : ℕ) {x y : ℚ} (h : x ≤ y) : roundTo p x ≤ roundTo p y := by
  unfold roundTo
  have hp : (0 : ℚ) < 10 ^ p := by positivity
  have hmul : x * 10 ^ p ≤ y * 10 ^ p := mul_le_mul_of_nonneg_right h hp.le
  have hr : roundHalfEven (x * 10 ^ p) ≤ roundHalfEven (y * 10 ^ p) :=
    roundHalfEven_mono hmul
  have hr' : ((roundHalfEven (x * 10 ^ p) : ℚ)) ≤ (roundHalfEven (y * 10 ^ p) : ℚ) := by
    exact_mod_cast hr
  exact (div_le_div_iff_of_pos_right hp).mpr hr'

example : roundTo 2 (1 / 3) = 33 / 100 := by decide

example : roundTo 2 (100 : ℚ) = 100 := by decide

example : roundHalfEven (5 / 2) = 2 := by decide

example : roundHalfEven (7 / 2) = 4 := by decide

theorem processCore_nil (c : Config) (le : OrderBookRow → OrderBookRow → Bool) :
    processCore c le [] = [] := by
  simp [processCore]

set_option maxRecDepth 4000 in
/-- Claim C2 (refuted by the code, confirming the comment `Keep last 100
updates` is not honoured): because eviction runs only when the length already
exceeds 100, the history reaches 101 entries; after 101 appends nothing has
been evicted yet (the oldest entry is still the 1st, tag `0`), and only after
the 102nd append is the 1st entry gone. -/
theorem C2_theorem :
    (appendRange 101).length = 101 ∧ (appendRange 101).head? = some 0 ∧
    (appendRange 102).length = 101 ∧ (appendRange 102).head? = some 1 := by
  decide

/-- Claim C3 (refuted by the code, contradicting the comment `Header (only on
first update)`): over the first three successful CSV cycles of a fresh run,
cycle 1 prints only a data row, and the header appears during cycle 2 —
after the first data row — because `update_count` is incremented only after
the display call. -/
theorem C3_theorem :
    runCsv 3 =
      (3, [[CsvLine.row], [CsvLine.header, CsvLine.row], [CsvLine.row]]) := by
  decide

/-- Claim C8: when the tick body raises, `on_tick` returns normally with the
pre-tick state unchanged — in particular `is_running` keeps its value — so
the loop can process subsequent ticks. -/
theorem C8_theorem (tickBody : TickState → Except String TickState)
    (st : TickState) (e : String) (h : tickBody st = Except.error e) :
    onTick tickBody st = st ∧
    (onTick tickBody st).is_running = st.is_running := by
  have hst : onTick tickBody st = st := by
    unfold onTick
    split
    · rw [h]
    · rfl
  exact ⟨hst, by rw [hst]⟩

/-- Witness for C8 at a concrete always-raising tick body. -/
theorem C8_witness :
    onTick failTick tickSt = tickSt ∧
    (onTick failTick tickSt).is_running = tickSt.is_running :=
  C8_theorem failTick tickSt ("boom") rfl

theorem detectLoop_eq_any (ks : List (List Char)) (cl : List Char) :
    detectLoop ks cl =
      if ks.any (fun k => substrIn k cl) then ("perpetual").toList
      else ("spot").toList := by
  induction ks with
  | nil => simp [detectLoop]
  | cons k ks ih =>
      by_cases h : substrIn k cl = true
      · simp [detectLoop, h]
      · simp [detectLoop, h, ih]

/-- Claim C4: a truthy explicitly configured connector type is returned
unchanged; otherwise classification is case-insensitive substring matching of
the connector name against the fixed keyword list, any (equivalently the
first) match giving perpetual, and no match defaulting to spot. -/
theorem C4_theorem (conn expl : List Char) :
    (expl ≠ [] → detectConnectorType conn expl = expl) ∧
    detectConnectorType conn [] =
      (if perpetualKeywords.any (fun k => substrIn k (lowerStr conn)) then
        ("perpetual").toList
      else ("spot").toList) := by
  constructor
  · intro h
    unfold detectConnectorType
    simp [h]
  · unfold detectConnectorType
    simp [detectLoop_eq_any]

/-- Witness for C4: an explicit type is kept; `dydx_mainnet` auto-classifies
as perpetual through the `dydx` keyword. -/
theorem C4_witness :
    detectConnectorType ("Binance_Paper").toList ("spot").toList
        = ("spot").toList ∧
    detectConnectorType ("dydx_mainnet").toList [] = ("perpetual").toList := by
  constructor
  · exact (C4_theorem (("Binance_Paper").toList) (("spot").toList)).1 (by decide)
  · have h := (C4_theorem (("dydx_mainnet").toList) []).2
    rw [h]
    decide

/-- Claim C7: with both thresholds configured (truthy), the high-spread alert
is emitted iff `spread_percent` strictly exceeds the spread threshold, the
low-volume alert is emitted iff the volume sum is strictly below the volume
threshold, and when both fire the list is high-spread first, low-volume
second. -/
theorem C7_theorem (c : Config) (d : Snapshot) (st vt : ℚ)
    (hs : c.spread_alert_threshold = some st) (hs0 : st ≠ 0)
    (hv : c.volume_alert_threshold = some vt) (hv0 : vt ≠ 0) :
    (AlertKind.high_spread ∈ checkAlerts c d ↔ st < d.spread_percent) ∧
    (AlertKind.low_volume ∈ checkAlerts c d ↔
      d.total_bid_volume + d.total_ask_volume < vt) ∧
    (st < d.spread_percent → d.total_bid_volume + d.total_ask_volume < vt →
      checkAlerts c d = [AlertKind.high_spread, AlertKind.low_volume]) := by
  unfold checkAlerts spreadAlertFires volumeAlertFires
  rw [hs, hv]
  by_cases h1 : st < d.spread_percent <;>
    by_cases h2 : d.total_bid_volume + d.total_ask_volume < vt <;>
      simp [h1, h2, hs0, hv0]

/-- Witness for C7 at concrete thresholds 1 and 10 with spread 2 percent and
volume sum 7: both alerts fire, high-spread first. -/
theorem C7_witness :
    (AlertKind.high_spread ∈ checkAlerts alertCfg alertSnap ↔
      (1 : ℚ) < alertSnap.spread_percent) ∧
    (AlertKind.low_volume ∈ checkAlerts alertCfg alertSnap ↔
      alertSnap.total_bid_volume + alertSnap.total_ask_volume < 10) ∧
    ((1 : ℚ) < alertSnap.spread_percent →
      alertSnap.total_bid_volume + alertSnap.total_ask_volume < 10 →
      checkAlerts alertCfg alertSnap =
        [AlertKind.high_spread, AlertKind.low_volume]) :=
  C7_theorem alertCfg alertSnap 1 10 rfl (by decide) rfl (by decide)

/-- Claim C10: setting any one of `min_volume_filter`, `spread_alert_threshold`
or `volume_alert_threshold` to `0` disables that check individually — the
remaining options stay arbitrary (`c` is universally quantified, covering
mixed configurations such as a zero spread threshold with a truthy volume
threshold).  Each zeroed option behaves exactly as if unset: a zero filter
drops no level (the side is just the sorted, truncated, rounded slice) and
the alert kind belonging to a zero threshold can never fire. -/
theorem C10_theorem (c : Config) (l : List OrderBookRow) (d : Snapshot) :
    processBids { c with min_volume_filter := some 0 } l
        = processBids { c with min_volume_filter := none } l ∧
    processAsks { c with min_volume_filter := some 0 } l
        = processAsks { c with min_volume_filter := none } l ∧
    processBids { c with min_volume_filter := some 0 } l
        = ((l.mergeSort bidLE).take c.orderbook_depth).map (mkLevel c) ∧
    processAsks { c with min_volume_filter := some 0 } l
        = ((l.mergeSort askLE).take c.orderbook_depth).map (mkLevel c) ∧
    checkAlerts { c with spread_alert_threshold := some 0 } d
        = checkAlerts { c with spread_alert_threshold := none } d ∧
    checkAlerts { c with volume_alert_threshold := some 0 } d
        = checkAlerts { c with volume_alert_threshold := none } d ∧
    AlertKind.high_spread ∉
      checkAlerts { c with spread_alert_threshold := some 0 } d ∧
    AlertKind.low_volume ∉
      checkAlerts { c with volume_alert_threshold := some 0 } d := by
  have hm0 : mkLevel { c with min_volume_filter := some 0 } = mkLevel c := by
    funext r
    simp [mkLevel]
  have hmn : mkLevel { c with min_volume_filter := none } = mkLevel c := by
    funext r
    simp [mkLevel]
  refine ⟨?_, ?_, ?_, ?_, ?_, ?_, ?_, ?_⟩
  · simp [processBids, processCore, dropLevel, hm0, hmn]
  · simp [processAsks, processCore, dropLevel, hm0, hmn]
  · simp [processBids, processCore, dropLevel, hm0]
  · simp [processAsks, processCore, dropLevel, hm0]
  · simp [checkAlerts, spreadAlertFires]
  · simp [checkAlerts, volumeAlertFires]
  · simp only [checkAlerts, spreadAlertFires]
    split <;> simp_all
  · simp only [checkAlerts, volumeAlertFires]
    split <;> simp_all

/-- Claim C5: when either side is empty after filtering and truncation, that
side's best price is 0 and `mid_price`, `spread` and `spread_percent` are all
0; the guards of lines 233-237 make every branch total, so no division by
zero arises. -/
theorem C5_theorem (c : Config) (rb ra : List OrderBookRow) (uc : ℕ)
    (h : processBids c rb = [] ∨ processAsks c ra = []) :
    (processBids c rb = [] → (processOrderbook c rb ra uc).best_bid = 0) ∧
    (processAsks c ra = [] → (processOrderbook c rb ra uc).best_ask = 0) ∧
    (processOrderbook c rb ra uc).mid_price = 0 ∧
    (processOrderbook c rb ra uc).spread = 0 ∧
    (processOrderbook c rb ra uc).spread_percent = 0 := by
  refine ⟨fun hb => ?_, fun ha => ?_, ?_, ?_, ?_⟩
  · simp [processOrderbook, hb, bestPrice]
  · simp [processOrderbook, ha, bestPrice]
  · rcases h with h | h <;> simp [processOrderbook, h, bestPrice, midPrice]
  · rcases h with h | h <;> simp [processOrderbook, h, bestPrice, spreadAbs]
  · rcases h with h | h <;>
      simp [processOrderbook, h, bestPrice, midPrice, spreadAbs, spreadPct]

/-- Witness for C5 with empty raw bids and one ask. -/
theorem C5_witness :
    (processBids emptyCfg [] = [] →
      (processOrderbook emptyCfg [] askRows 0).best_bid = 0) ∧
    (processAsks emptyCfg askRows = [] →
      (processOrderbook emptyCfg [] askRows 0).best_ask = 0) ∧
    (processOrderbook emptyCfg [] askRows 0).mid_price = 0 ∧
    (processOrderbook emptyCfg [] askRows 0).spread = 0 ∧
    (processOrderbook emptyCfg [] askRows 0).spread_percent = 0 :=
  C5_theorem emptyCfg [] askRows 0 (Or.inl (processCore_nil emptyCfg bidLE))

theorem bidLE_trans : ∀ a b c : OrderBookRow, bidLE a b → bidLE b c → bidLE a c := by
  intro a b c h1 h2
  simp only [bidLE, decide_eq_true_eq] at *
  exact le_trans h2 h1

theorem bidLE_total : ∀ a b : OrderBookRow, bidLE a b || bidLE b a := by
  intro a b
  simp only [bidLE, Bool.or_eq_true, decide_eq_true_eq]
  exact le_total b.price a.price

theorem askLE_trans : ∀ a b c : OrderBookRow, askLE a b → askLE b c → askLE a c := by
  intro a b c h1 h2
  simp only [askLE, decide_eq_true_eq] at *
  exact le_trans h1 h2

theorem askLE_total : ∀ a b : OrderBookRow, askLE a b || askLE b a := by
  intro a b
  simp only [askLE, Bool.or_eq_true, decide_eq_true_eq]
  exact le_total a.price b.price

theorem processBids_pairwise (c : Config) (l : List OrderBookRow) :
    (processBids c l).Pairwise (fun a b => b.price ≤ a.price) := by
  unfold processBids processCore
  have hs : (l.mergeSort bidLE).Pairwise (fun a b => bidLE a b) :=
    List.sorted_mergeSort bidLE_trans bidLE_total l
  have hs' : (l.mergeSort bidLE).Pairwise
      (fun a b : OrderBookRow => b.price ≤ a.price) := by
    refine hs.imp ?_
    intro a b h
    simpa [bidLE] using h
  have ht := hs'.sublist (List.take_sublist c.orderbook_depth _)
  have hf : (((l.mergeSort bidLE).take c.orderbook_depth).filter
      (fun r => ! dropLevel c.min_volume_filter r)).Pairwise
      (fun a b : OrderBookRow => b.price ≤ a.price) :=
    ht.sublist (List.filter_sublist _)
  exact hf.map (mkLevel c) (fun a b h => roundTo_mono c.price_precision h)

theorem processAsks_pairwise (c : Config) (l : List OrderBookRow) :
    (processAsks c l).Pairwise (fun a b => a.price ≤ b.price) := by
  unfold processAsks processCore
  have hs : (l.mergeSort askLE).Pairwise (fun a b => askLE a b) :=
    List.sorted_mergeSort askLE_trans askLE_total l
  have hs' : (l.mergeSort askLE).Pairwise
      (fun a b : OrderBookRow => a.price ≤ b.price) := by
    refine hs.imp ?_
    intro a b h
    simpa [askLE] using h
  have ht := hs'.sublist (List.take_sublist c.orderbook_depth _)
  have hf : (((l.mergeSort askLE).take c.orderbook_depth).filter
      (fun r => ! dropLevel c.min_volume_filter r)).Pairwise
      (fun a b : OrderBookRow => a.price ≤ b.price) :=
    ht.sublist (List.filter_sublist _)
  exact hf.map (mkLevel c) (fun a b h => roundTo_mono c.price_precision h)

theorem processCore_length (c : Config) (le : OrderBookRow → OrderBookRow → Bool)
    (l : List OrderBookRow) :
    (processCore c le l).length ≤ c.orderbook_depth := by
  unfold processCore
  rw [List.length_map]
  refine le_trans (List.length_filter_le _ _) ?_
  rw [List.length_take]
  omega

/-- Claim C6: reduced bids are non-increasing by price, reduced asks are
non-decreasing by price, and each side retains at most `orderbook_depth`
levels. -/
theorem C6_theorem (c : Config) (rb ra : List OrderBookRow) (uc : ℕ) :
    ((processOrderbook c rb ra uc).bids).Pairwise (fun a b => b.price ≤ a.price) ∧
    ((processOrderbook c rb ra uc).asks).Pairwise (fun a b => a.price ≤ b.price) ∧
    (processOrderbook c rb ra uc).bids.length ≤ c.orderbook_depth ∧
    (processOrderbook c rb ra uc).asks.length ≤ c.orderbook_depth :=
  ⟨processBids_pairwise c rb, processAsks_pairwise c ra,
   processCore_length c bidLE rb, processCore_length c askLE ra⟩

/-- Counterexample to claim C1 as stated: with depth 1 and threshold 1, the
code truncates to the single best bid (size 1/2) and then filters it away,
returning no level, whereas filtering before truncation (the claim) would
keep the level at price 99 of size 2. -/
theorem C1_counterexample :
    processBids cexCfg cexRows = [] ∧
    specFilterFirstCore cexCfg bidLE cexRows =
      [{ price := 99, volume := 2, total := 198 }] ∧
    processBids cexCfg cexRows ≠ specFilterFirstCore cexCfg bidLE cexRows := by
  have hs : cexRows.mergeSort bidLE = cexRows :=
    List.mergeSort_of_sorted (by decide)
  have h1 : processBids cexCfg cexRows = [] := by
    unfold processBids processCore
    rw [hs]
    decide
  have h2 : specFilterFirstCore cexCfg bidLE cexRows =
      [{ price := 99, volume := 2, total := 198 }] := by
    unfold specFilterFirstCore
    rw [hs]
    decide
  refine ⟨h1, h2, ?_⟩
  rw [h1, h2]
  decide

/-- Claim C1, amended: with a truthy `min_volume_filter` threshold `t`, a
level is removed iff its size is strictly below `t` (a level whose size
equals `t` is retained), but the guard runs after the depth slice: each side
keeps exactly those of the first `orderbook_depth` price-sorted levels whose
size is at least `t` (so a side can end up with fewer than `depth` levels
even when deeper levels would pass the filter). -/
theorem C1_theorem (c : Config) (t : ℚ) (l : List OrderBookRow)
    (hc : c.min_volume_filter = some t) (ht : t ≠ 0) :
    processBids c l = (((l.mergeSort bidLE).take c.orderbook_depth).filter
        (fun r => decide (t ≤ r.amount))).map (mkLevel c) ∧
    processAsks c l = (((l.mergeSort askLE).take c.orderbook_depth).filter
        (fun r => decide (t ≤ r.amount))).map (mkLevel c) := by
  have h0 : decide (t ≠ 0) = true := decide_eq_true ht
  have hp : ∀ r : OrderBookRow,
      (! dropLevel c.min_volume_filter r) = decide (t ≤ r.amount) := by
    intro r
    rw [hc]
    simp only [dropLevel, h0, Bool.true_and]
    rw [← decide_not]
    simp [not_lt]
  constructor
  · unfold processBids processCore
    exact congrArg (List.map (mkLevel c))
      (List.filter_congr (fun a _ => hp a))
  · unfold processAsks processCore
    exact congrArg (List.map (mkLevel c))
      (List.filter_congr (fun a _ => hp a))

/-- Witness for the amended C1 at threshold 1, with one borderline level of
size exactly 1 (retained) and one of size 1/2 (removed). -/
theorem C1_witness :
    processBids bordCfg bordRows =
      (((bordRows.mergeSort bidLE).take bordCfg.orderbook_depth).filter
        (fun r => decide ((1 : ℚ) ≤ r.amount))).map (mkLevel bordCfg) :=
  (C1_theorem bordCfg 1 bordRows rfl (by decide)).1

theorem processCore_fixed (c : Config)
    (le : OrderBookRow → OrderBookRow → Bool) (f : List OrderBookRow)
    (hpair : f.Pairwise (fun a b => le a b))
    (hlen : f.length ≤ c.orderbook_depth)
    (hfilter : ∀ r ∈ f, dropLevel c.min_volume_filter r = false) :
    processCore c le f = f.map (mkLevel c) := by
  unfold processCore
  rw [List.mergeSort_of_sorted hpair, List.take_of_length_le hlen,
    List.filter_eq_self.mpr (by intro a ha; simp [hfilter a ha])]

theorem processCore_idem (c : Config)
    (le : OrderBookRow → OrderBookRow → Bool)
    (htrans : ∀ a b d, le a b → le b d → le a d)
    (htotal : ∀ a b, le a b || le b a)
    (l : List OrderBookRow)
    (h : ∀ r ∈ l, roundTo c.price_precision r.price = r.price ∧
        roundTo c.volume_precision r.amount = r.amount) :
    processCore c le (rowsOf (processCore c le l)) = processCore c le l := by
  have hpairf : (((l.mergeSort le).take c.orderbook_depth).filter
      (fun r => ! dropLevel c.min_volume_filter r)).Pairwise
      (fun a b => le a b) :=
    (((List.sorted_mergeSort htrans htotal l).sublist
      (List.take_sublist c.orderbook_depth _)).sublist (List.filter_sublist _))
  have hlenf : (((l.mergeSort le).take c.orderbook_depth).filter
      (fun r => ! dropLevel c.min_volume_filter r)).length
        ≤ c.orderbook_depth := by
    refine le_trans (List.length_filter_le _ _) ?_
    rw [List.length_take]
    omega
  have hfilterf : ∀ r ∈ (((l.mergeSort le).take c.orderbook_depth).filter
      (fun r => ! dropLevel c.min_volume_filter r)),
      dropLevel c.min_volume_filter r = false := by
    intro r hr
    have := List.of_mem_filter hr
    simpa using this
  have hmem : ∀ r ∈ (((l.mergeSort le).take c.orderbook_depth).filter
      (fun r => ! dropLevel c.min_volume_filter r)), r ∈ l := by
    intro r hr
    exact (List.mem_mergeSort).1
      (List.take_subset _ _ (List.mem_of_mem_filter hr))
  have hrows : rowsOf (processCore c le l) =
      ((l.mergeSort le).take c.orderbook_depth).filter
        (fun r => ! dropLevel c.min_volume_filter r) := by
    unfold processCore rowsOf
    rw [List.map_map]
    have hpt : ∀ r ∈ (((l.mergeSort le).take c.orderbook_depth).filter
        (fun r => ! dropLevel c.min_volume_filter r)),
        (((fun p : ProcessedLevel => ({ price := p.price, amount := p.volume } :
          OrderBookRow)) ∘ mkLevel c) r) = id r := by
      intro r hr
      have hh := h r (hmem r hr)
      simp only [Function.comp_apply, mkLevel]
      rw [hh.1, hh.2]
      rfl
    rw [List.map_congr_left hpt, List.map_id]
  calc processCore c le (rowsOf (processCore c le l))
      = processCore c le (((l.mergeSort le).take c.orderbook_depth).filter
          (fun r => ! dropLevel c.min_volume_filter r)) := by rw [hrows]
    _ = (((l.mergeSort le).take c.orderbook_depth).filter
          (fun r => ! dropLevel c.min_volume_filter r)).map (mkLevel c) :=
        processCore_fixed c le _ hpairf hlenf hfilterf
    _ = processCore c le l := rfl

/-- Claim C9: the reduction is idempotent with respect to rounding — if every
raw price is already rounded at `price_precision` and every raw size at
`volume_precision`, then feeding the reduced levels (price and size) back
through the same reduction reproduces exactly the same processed levels
(same prices, sizes and notionals). -/
theorem C9_theorem (c : Config) (rb ra : List OrderBookRow)
    (hb : ∀ r ∈ rb, roundTo c.price_precision r.price = r.price ∧
        roundTo c.volume_precision r.amount = r.amount)
    (ha : ∀ r ∈ ra, roundTo c.price_precision r.price = r.price ∧
        roundTo c.volume_precision r.amount = r.amount) :
    processBids c (rowsOf (processBids c rb)) = processBids c rb ∧
    processAsks c (rowsOf (processAsks c ra)) = processAsks c ra :=
  ⟨processCore_idem c bidLE bidLE_trans bidLE_total rb hb,
   processCore_idem c askLE askLE_trans askLE_total ra ha⟩

/-- Witness for C9 on concrete already-rounded levels. -/
theorem C9_witness :
    processBids roundedCfg (rowsOf (processBids roundedCfg roundedBids))
        = processBids roundedCfg roundedBids ∧
    processAsks roundedCfg (rowsOf (processAsks roundedCfg roundedAsks))
        = processAsks roundedCfg roundedAsks :=
  C9_theorem roundedCfg roundedBids roundedAsks (by decide) (by decide)

end RealtimeOrderbook

